import Mathlib

/-!
Verification development for the path-rewriting core of rewritefs
(src/rewrite.c).

Byte strings are modelled as `List Char` (the paths and patterns handled by
the program are byte strings; we use Lean characters as the byte alphabet).

The PCRE regex engine is external to the repository; it is modelled at its
interface: a `Regexp` carries the capture count reported by `pcre_fullinfo`
and an `exec` function standing for `pcre_exec` on a given subject, returning
either a match (with the ovector data: whole-match offsets and, for each
capture group, its text or `none` when the group did not participate in the
match), a clean no-match (`PCRE_ERROR_NOMATCH`), or an engine-internal error
code (any other negative return value).
-/

namespace Rewritefs

abbrev Str := List Char

/-- Result of a `pcre_exec` call, at the adapter interface of §4.2:
`matched mstart mend groups` corresponds to a non-negative return with
`ovector[0] = mstart`, `ovector[1] = mend` and per-group data `groups`
(index `i` of the list is capture group `i+1`; `none` means the group did
not participate, i.e. its ovector pair is `-1,-1`). -/
inductive ExecResult where
  | matched (mstart mend : Nat) (groups : List (Option Str))
  | noMatch
  | engineError (code : Int)
deriving DecidableEq, Repr

/-- `struct regexp` of rewrite.c: compiled pattern (its behaviour is the
`exec` oracle), capture count from `pcre_fullinfo`, raw source text. -/
structure Regexp where
  captures : Nat
  raw : Str
  exec : Str → ExecResult

/-- `struct rewrite_rule`: path pattern plus template; `none` template is the
passthrough sentinel (config text `.`, stored as NULL). -/
structure Rule where
  filename_regexp : Regexp
  rewritten_path : Option Str

/-- `struct rewrite_context`: optional caller-cmdline pattern (`none` = the
default, match-every-caller context) and its ordered rules. -/
structure Context where
  cmdline : Option Regexp
  rules : List Rule

/-- The fields of `struct config` that resolution reads. -/
structure Config where
  orig_fs : Str
  contexts : List Context
  autocreate : Bool

/-- Observable side effects of `apply_rule`'s autocreate block
(lines 508-525): effective-identity switches and directory creation. -/
inductive Effect where
  | setEuid (u : Nat)
  | setEgid (g : Nat)
  | mkdirParents (p : Str)
deriving DecidableEq, Repr

/-- The request path with its leading slash stripped: the `path + 1` subject
passed to every rule-pattern `pcre_exec` (lines 459 and 559). -/
def stripSlash (path : Str) : Str := path.drop 1

/-- Modelled from the spec: `string_replace` lives in util.c, which is not
part of src/. The design notes (§9) describe it as the repeated
allocate-and-replace substitution step: replacing, left to right, every
(non-overlapping) occurrence of the pattern in the subject by the
replacement. The `fuel` argument, initialised to the subject's length, is an
upper bound on the number of loop steps (every step consumes at least one
subject character); it only serves to make the recursion structural and is
never exhausted on a non-empty subject. -/
def string_replace_go : Nat → Str → Str → Str → Str
  | _, [], _, _ => []
  | 0, s, _, _ => s
  | Nat.succ fuel, c :: s, [], rep => c :: string_replace_go fuel s [] rep
  | Nat.succ fuel, c :: s, f :: fs, rep =>
    if (f :: fs).isPrefixOf (c :: s) then
      rep ++ string_replace_go fuel (s.drop fs.length) (f :: fs) rep
    else
      c :: string_replace_go fuel s (f :: fs) rep

/-- Replace every occurrence of `frm` in `s` by `rep` (util.c
`string_replace`, modelled from the spec). -/
def string_replace (s frm rep : Str) : Str := string_replace_go s.length s frm rep

/-- The `stringcount` that `pcre_exec` reports for a successful match: one
more than the highest-numbered capture group that participated (PCRE API;
trailing non-participating groups are not counted). -/
def scountOf (groups : List (Option Str)) : Nat :=
  1 + ((groups.reverse.dropWhile Option.isNone).reverse).length

/-- `pcre_get_substring` at the PCRE interface: group number at or above the
reported `stringcount` yields `PCRE_ERROR_NOSUBSTRING` (modelled `none`); a
group below it yields its text, the empty string when the group did not
participate (its ovector pair being `-1,-1`, the computed length is 0). -/
def pcre_get_substring (groups : List (Option Str)) (scount i : Nat) : Option Str :=
  if scount ≤ i then none
  else some ((groups.getD (i - 1) none).getD [])

/-- The textual backreference token built by apply_rule's
`snprintf(.., "\\%d", i)` (lines 476-479). -/
def backref_token (i : Nat) : Str := '\\' :: (Nat.repr i).data

/-- The backreference-replacement loop of apply_rule (lines 462-487): for
`i = 1 .. captures` in increasing order, fetch group `i` (aborting, via the
`assert(substr_len >= 0)`, when `pcre_get_substring` fails) and replace the
token `\i` in the current template string by the group text. -/
def subst_backrefs (tmpl : Str) (groups : List (Option Str)) (scount captures : Nat) :
    Option Str :=
  (List.range captures).foldlM
    (fun acc j =>
      match pcre_get_substring groups scount (j + 1) with
      | none => none
      | some sub => some (string_replace acc (backref_token (j + 1)) sub))
    tmpl

/-- The rewriting branch of apply_rule once the match data is at hand:
backreference substitution, assembly of
`orig_fs ++ path[0 .. 1+mstart) ++ substituted ++ path[1+mend ..)`
(lines 496-503), then the autocreate block (lines 508-525). `none` models
the process aborting at the assertion inside the substitution loop. -/
def apply_rule_rewrite (fs : Str) (ac : Bool) (euid egid uid gid : Nat) (path tmpl : Str)
    (mstart mend : Nat) (groups : List (Option Str)) (scount captures : Nat) :
    Option (Str × List Effect) :=
  match subst_backrefs tmpl groups scount captures with
  | none => none
  | some rewritten_path =>
    let rewritten := fs ++ path.take (1 + mstart) ++ rewritten_path
        ++ path.drop (1 + mend)
    let effs := if ac then
        [Effect.setEuid uid, Effect.setEgid gid, Effect.mkdirParents rewritten,
         Effect.setEuid euid, Effect.setEgid egid]
      else []
    some (rewritten, effs)

/-- apply_rule (rewrite.c lines 443-530); `fs` and `ac` are the global
`config.orig_fs` and `config.autocreate`. `euid`/`egid` are the server's own
effective ids (read back by `geteuid`/`getegid`), `uid`/`gid` the requesting
caller's ids from the fuse context. A `none` rule or a `none` template takes
the early branch of lines 447-453: `orig_fs ++ path` verbatim, no side
effects. Otherwise the rule's pattern is re-executed on `path+1`; on a match
the ovector and stringcount are as reported, while on a (normally
unreachable) failure the calloc'ed ovector stays zero and the negative
stringcount makes every `pcre_get_substring` fail (modelled by scount 0). -/
def apply_rule (fs : Str) (ac : Bool) (euid egid uid gid : Nat) (path : Str)
    (rule : Option Rule) : Option (Str × List Effect) :=
  match rule with
  | none => some (fs ++ path, [])
  | some r =>
    match r.rewritten_path with
    | none => some (fs ++ path, [])
    | some tmpl =>
      match r.filename_regexp.exec (stripSlash path) with
      | ExecResult.matched a b gs =>
          apply_rule_rewrite fs ac euid egid uid gid path tmpl a b gs (scountOf gs)
            r.filename_regexp.captures
      | _ =>
          apply_rule_rewrite fs ac euid egid uid gid path tmpl 0 0 [] 0
            r.filename_regexp.captures

/-- Did this `pcre_exec` result take the `res >= 0` branch? -/
def isMatched : ExecResult → Bool
  | ExecResult.matched _ _ _ => true
  | _ => false

/-- The WARNING line printed for a negative `pcre_exec` result other than
`PCRE_ERROR_NOMATCH` (lines 547-549 and 561-563). -/
def warnOf : ExecResult → List Int
  | ExecResult.engineError e => [e]
  | _ => []

/-- Is the context entered (lines 542-556): no caller pattern, or the caller
pattern matched the caller cmdline. -/
def ctxEntered (caller : Str) (cmd : Option Regexp) : Bool :=
  match cmd with
  | none => true
  | some rg => isMatched (rg.exec caller)

/-- Warnings emitted while testing the context's caller pattern. -/
def ctxWarnings (caller : Str) (cmd : Option Regexp) : List Int :=
  match cmd with
  | none => []
  | some rg => warnOf (rg.exec caller)

/-- The inner rule loop of rewrite (lines 558-570): first rule whose pattern
matches `path+1` wins; engine errors along the way are logged as warnings
and passed over like a no-match. Returns the winning rule (if any) and the
warnings printed before the loop stopped. -/
def scanRules (path : Str) : List Rule → Option Rule × List Int
  | [] => (none, [])
  | r :: rs =>
    let ex := r.filename_regexp.exec (stripSlash path)
    if isMatched ex then (some r, [])
    else
      let rest := scanRules path rs
      (rest.1, warnOf ex ++ rest.2)

/-- The outer context loop of rewrite (lines 541-571): contexts in declared
order; a context that is not entered is skipped (logging a warning when the
caller-pattern exec errored); an entered context whose rules all fail falls
through to the next context. -/
def scanContexts (caller path : Str) : List Context → Option Rule × List Int
  | [] => (none, [])
  | c :: cs =>
    if ctxEntered caller c.cmdline then
      let rr := scanRules path c.rules
      match rr.1 with
      | some r => (some r, rr.2)
      | none =>
        let rest := scanContexts caller path cs
        (rest.1, rr.2 ++ rest.2)
    else
      let rest := scanContexts caller path cs
      (rest.1, ctxWarnings caller c.cmdline ++ rest.2)

/-- Everything observable about one resolution call: the returned path
(`none` when the process aborted inside apply_rule), the side effects of the
autocreate block, and the WARNING lines printed for engine errors. -/
structure RewriteOut where
  result : Option Str
  effects : List Effect
  warnings : List Int
deriving DecidableEq, Repr

/-- rewrite (lines 532-575): scan the contexts for the first matching rule,
then hand the winner (or NULL) to apply_rule. `caller` is the memoized
caller cmdline used for every context test of this call. -/
def rewrite (cfg : Config) (euid egid uid gid : Nat) (caller path : Str) :
    RewriteOut :=
  let s := scanContexts caller path cfg.contexts
  match apply_rule cfg.orig_fs cfg.autocreate euid egid uid gid path s.1 with
  | some pe => { result := some pe.1, effects := pe.2, warnings := s.2 }
  | none => { result := none, effects := [], warnings := s.2 }

/-- parse_string (rewrite.c lines 102-136), reading from the character
stream `input` until an unescaped `sep`: the C loop updates the `escaped`
flag from the CURRENT character first (toggling on a backslash, clearing on
anything else) and only then performs the separator test, removing the
previous character and keeping `c` when `escaped` is set. Returns the
accumulated body and the unconsumed rest of the stream; `none` models the
fatal `exit(1)` on EOF. (The `string_size--` of line 129 on an empty buffer
is a C buffer underflow; it is modelled by `List.dropLast` on `[]`.) -/
def parse_string_go (sep : Char) : List Char → Str → Bool → Option (Str × List Char)
  | [], _, _ => none
  | c :: rest, acc, escaped =>
    let escaped' := if c = '\\' then !escaped else false
    if c = sep then
      if escaped' then parse_string_go sep rest (acc.dropLast ++ [c]) escaped'
      else some (acc, rest)
    else parse_string_go sep rest (acc ++ [c]) escaped'

/-- Entry point of parse_string: empty accumulator, `escaped = 0`. -/
def parse_string (input : List Char) (sep : Char) : Option (Str × List Char) :=
  parse_string_go sep input [] false

/-- Modelled from the spec (§4.1): the intended delimiter-escape semantics
of parse_string — track whether the PREVIOUS character left the scanner in
escaped state, test the separator against that state, and on an escaped
separator drop the backslash just stored and keep the separator character.
This is the same loop with the separator test performed before the escape
flag is updated from the current character. -/
def parse_string_spec_go (sep : Char) : List Char → Str → Bool → Option (Str × List Char)
  | [], _, _ => none
  | c :: rest, acc, escaped =>
    if c = sep then
      if escaped then parse_string_spec_go sep rest (acc.dropLast ++ [c]) false
      else some (acc, rest)
    else
      let escaped' := if c = '\\' then !escaped else false
      parse_string_spec_go sep rest (acc ++ [c]) escaped'

/-- Entry point of the intended-semantics scanner. -/
def parse_string_spec (input : List Char) (sep : Char) : Option (Str × List Char) :=
  parse_string_spec_go sep input [] false

/-- The NUL byte. -/
def nulChar : Char := Char.ofNat 0

/-- The byte content of `/proc/<pid>/cmdline` for a process whose argument
vector is `args`: each argument's bytes followed by a terminating NUL
(documented Linux format; C strings contain no interior NUL). -/
def proc_cmdline_bytes (args : List Str) : List Char :=
  args.foldr (fun a acc => a ++ nulChar :: acc) []

/-- get_caller_cmdline (rewrite.c lines 414-441): `none` input models an
unreadable `/proc/<pid>/cmdline` (fopen fails, e.g. the process exited), in
which case the empty string is returned with no error; otherwise every byte
of the file is appended, with NUL bytes turned into single spaces. -/
def get_caller_cmdline (input : Option (List Char)) : Str :=
  match input with
  | none => []
  | some bytes => bytes.map (fun c => if c = nulChar then ' ' else c)

/-- One full resolution including the caller-cmdline read: rewrite's lazy
`get_caller_cmdline()` value is exactly this function of the per-process
introspection data. -/
def rewrite_with_proc (cfg : Config) (euid egid uid gid : Nat)
    (proc : Option (List Char)) (path : Str) : RewriteOut :=
  rewrite cfg euid egid uid gid (get_caller_cmdline proc) path

/-- `strncmp(a, b, n) == 0` for NUL-free C strings: the first `n` characters
(capped at either string's end, where the terminating NUL forces any length
difference inside the window to compare unequal) agree. -/
def strncmp_eq0 (a b : Str) (n : Nat) : Bool := a.take n == b.take n

/-- The startup collision check of parse_args (rewrite.c lines 386-390):
`strncmp(config.config_file, config.mount_point, strlen(config.mount_point))
== 0` makes startup fail before serving. -/
def startup_config_rejected (config_file mount_point : Str) : Bool :=
  strncmp_eq0 config_file mount_point mount_point.length

/-- The template expansion exactly as claim C1 and §4.4 step 5 word it: one
left-to-right scan over the template, copying literal bytes and replacing
every backreference token `\N` (N = 1..captures) by the text of capture
group N of the winning match. -/
def spec_expand (groups : List (Option Str)) (captures : Nat) : Str → Str
  | [] => []
  | c :: rest =>
    if c = '\\' then
      match rest with
      | [] => [c]
      | d :: rest2 =>
        if '1' ≤ d ∧ d ≤ '9' ∧ (d.toNat - '0'.toNat) ≤ captures then
          ((groups.getD (d.toNat - '0'.toNat - 1) none).getD [])
            ++ spec_expand groups captures rest2
        else c :: spec_expand groups captures (d :: rest2)
    else c :: spec_expand groups captures rest

/-!  Helper lemmas about the scanning loops.  -/

/-- How a scan over a concatenation combines partial scans: a winner found in
the first part wins outright; otherwise the second part is scanned and the
warnings concatenate. -/
def scanCombine (x y : Option Rule × List Int) : Option Rule × List Int :=
  match x.1 with
  | some w => (some w, x.2)
  | none => (y.1, x.2 ++ y.2)

theorem scanRules_append (path : Str) (xs ys : List Rule) :
    scanRules path (xs ++ ys) = scanCombine (scanRules path xs) (scanRules path ys) := by
  induction xs with
  | nil => simp [scanRules, scanCombine]
  | cons r rs ih =>
    by_cases h : isMatched (r.filename_regexp.exec (stripSlash path))
    · simp [scanRules, h, scanCombine]
    · rcases hx : scanRules path rs with ⟨w, ws⟩
      cases w <;>
        simp [scanRules, h, ih, hx, scanCombine, List.append_assoc]

theorem scanContexts_append (caller path : Str) (xs ys : List Context) :
    scanContexts caller path (xs ++ ys)
      = scanCombine (scanContexts caller path xs) (scanContexts caller path ys) := by
  induction xs with
  | nil => simp [scanContexts, scanCombine]
  | cons c cs ih =>
    by_cases h : ctxEntered caller c.cmdline
    · rcases hrr : scanRules path c.rules with ⟨wr, wsr⟩
      cases wr with
      | some r => simp [scanContexts, h, hrr, scanCombine]
      | none =>
        rcases hx : scanContexts caller path cs with ⟨w, ws⟩
        cases w <;>
          simp [scanContexts, h, hrr, ih, hx, scanCombine, List.append_assoc]
    · rcases hx : scanContexts caller path cs with ⟨w, ws⟩
      cases w <;>
        simp [scanContexts, h, ih, hx, scanCombine, List.append_assoc]

theorem scanRules_none_of_all_fail (path : Str) (rules : List Rule)
    (h : ∀ r ∈ rules, isMatched (r.filename_regexp.exec (stripSlash path)) = false) :
    (scanRules path rules).1 = none := by
  induction rules with
  | nil => rfl
  | cons r rs ih =>
    have hr := h r (List.mem_cons_self r rs)
    simp [scanRules, hr]
    exact ih (fun r' hr' => h r' (List.mem_cons_of_mem _ hr'))

theorem scanContexts_none_of_all_fail (caller path : Str) (ctxs : List Context)
    (h : ∀ c ∈ ctxs, ∀ r ∈ c.rules,
      isMatched (r.filename_regexp.exec (stripSlash path)) = false) :
    (scanContexts caller path ctxs).1 = none := by
  induction ctxs with
  | nil => rfl
  | cons c cs ih =>
    have hcs := ih (fun c' hc' => h c' (List.mem_cons_of_mem _ hc'))
    by_cases hc : ctxEntered caller c.cmdline
    · have hr := scanRules_none_of_all_fail path c.rules (h c (List.mem_cons_self c cs))
      rcases hrr : scanRules path c.rules with ⟨wr, wsr⟩
      rw [hrr] at hr; cases hr
      simp [scanContexts, hc, hrr, hcs]
    · simp [scanContexts, hc, hcs]

theorem apply_rule_rewrite_mkdir_inv (fs : Str) (ac : Bool) (euid egid uid gid : Nat)
    (path tmpl : Str) (a b : Nat) (gs : List (Option Str)) (scount captures : Nat)
    (pe : Str × List Effect) (p : Str)
    (h : apply_rule_rewrite fs ac euid egid uid gid path tmpl a b gs scount captures
      = some pe)
    (hp : Effect.mkdirParents p ∈ pe.2) : ac = true ∧ pe.1 = p := by
  rcases hsub : subst_backrefs tmpl gs scount captures with _ | rp
  · simp [apply_rule_rewrite, hsub] at h
  · simp only [apply_rule_rewrite, hsub, Option.some.injEq] at h
    rcases ac
    · simp only [Bool.false_eq_true, if_neg, ite_false] at h
      rw [← h] at hp
      simp at hp
    · simp only [ite_true] at h
      rw [← h] at hp
      simp only [List.mem_cons, List.not_mem_nil, or_false] at hp
      refine ⟨rfl, ?_⟩
      rw [← h]
      rcases hp with hp | hp | hp | hp | hp <;> simp_all

theorem apply_rule_mkdir_inv (fs : Str) (ac : Bool) (euid egid uid gid : Nat)
    (path : Str) (rule : Option Rule) (pe : Str × List Effect) (p : Str)
    (h : apply_rule fs ac euid egid uid gid path rule = some pe)
    (hp : Effect.mkdirParents p ∈ pe.2) :
    ac = true ∧ pe.1 = p
      ∧ ∃ r tmpl, rule = some r ∧ r.rewritten_path = some tmpl := by
  rcases rule with _ | r
  · simp only [apply_rule, Option.some.injEq] at h
    rw [← h] at hp
    simp at hp
  · rcases htm : r.rewritten_path with _ | tmpl
    · simp only [apply_rule, htm, Option.some.injEq] at h
      rw [← h] at hp
      simp at hp
    · rcases hex : r.filename_regexp.exec (stripSlash path) with ⟨a, b, gs⟩ | _ | e
      · simp only [apply_rule, htm, hex] at h
        obtain ⟨hac, hpe⟩ := apply_rule_rewrite_mkdir_inv _ _ _ _ _ _ _ _ _ _ _ _ _ _ _ h hp
        exact ⟨hac, hpe, r, tmpl, rfl, htm⟩
      · simp only [apply_rule, htm, hex] at h
        obtain ⟨hac, hpe⟩ := apply_rule_rewrite_mkdir_inv _ _ _ _ _ _ _ _ _ _ _ _ _ _ _ h hp
        exact ⟨hac, hpe, r, tmpl, rfl, htm⟩
      · simp only [apply_rule, htm, hex] at h
        obtain ⟨hac, hpe⟩ := apply_rule_rewrite_mkdir_inv _ _ _ _ _ _ _ _ _ _ _ _ _ _ _ h hp
        exact ⟨hac, hpe, r, tmpl, rfl, htm⟩

/-!  Claim C2.  -/

/-- C2: for every request path, if no Rule in any Context matches the
stripped request path, or the winning Rule's template is the passthrough
sentinel, resolution returns exactly `root ++ path`, byte for byte; the
passthrough case is identical to the no-match case. -/
theorem resolve_verbatim_no_match_or_passthrough
    (cfg : Config) (euid egid uid gid : Nat) (caller path : Str)
    (h : (∀ c ∈ cfg.contexts, ∀ r ∈ c.rules,
            isMatched (r.filename_regexp.exec (stripSlash path)) = false)
       ∨ (∃ r, (scanContexts caller path cfg.contexts).1 = some r ∧
            r.rewritten_path = none)) :
    (rewrite cfg euid egid uid gid caller path).result
      = some (cfg.orig_fs ++ path) := by
  have hw : (scanContexts caller path cfg.contexts).1 = none
      ∨ (∃ r, (scanContexts caller path cfg.contexts).1 = some r ∧
          r.rewritten_path = none) := by
    rcases h with h | h
    · exact Or.inl (scanContexts_none_of_all_fail caller path cfg.contexts h)
    · exact Or.inr h
  rcases hw with hw | ⟨r, hw, ht⟩
  · simp [rewrite, hw, apply_rule]
  · simp [rewrite, hw, apply_rule, ht]

/-- Concrete data for the C2 witness: one context, one never-matching rule. -/
def rgC2w : Regexp := { captures := 0, raw := [], exec := fun _ => ExecResult.noMatch }

/-- Concrete config for the C2 witness. -/
def cfgC2w : Config :=
  { orig_fs := "/data".data,
    contexts := [{ cmdline := none,
                   rules := [{ filename_regexp := rgC2w, rewritten_path := some "t".data }] }],
    autocreate := true }

/-- Witness for C2: the theorem applied at a concrete config and path. -/
theorem resolve_verbatim_no_match_or_passthrough_witness :
    (rewrite cfgC2w 1 2 3 4 [] "/x".data).result = some ("/data/x".data) :=
  resolve_verbatim_no_match_or_passthrough cfgC2w 1 2 3 4 [] "/x".data
    (Or.inl (by decide))

/-!  Claim C10.  -/

/-- C10: even with autocreate enabled, resolutions ending in the no-match
case or in a passthrough-sentinel rule produce no directory creation and no
effective-identity switch (the effect trace is empty); and a
directory-creation effect only ever happens with autocreate enabled, for the
very path returned, and under a winning rule with a real (non-passthrough)
template. -/
theorem no_rewrite_branch_is_effect_free
    (cfg : Config) (euid egid uid gid : Nat) (caller path : Str) :
    (((∀ c ∈ cfg.contexts, ∀ r ∈ c.rules,
          isMatched (r.filename_regexp.exec (stripSlash path)) = false)
        ∨ (∃ r, (scanContexts caller path cfg.contexts).1 = some r ∧
             r.rewritten_path = none)) →
      (rewrite cfg euid egid uid gid caller path).effects = [])
    ∧ (∀ p, Effect.mkdirParents p ∈ (rewrite cfg euid egid uid gid caller path).effects →
        cfg.autocreate = true
        ∧ (rewrite cfg euid egid uid gid caller path).result = some p
        ∧ ∃ r tmpl, (scanContexts caller path cfg.contexts).1 = some r
            ∧ r.rewritten_path = some tmpl) := by
  constructor
  · intro h
    have hw : (scanContexts caller path cfg.contexts).1 = none
        ∨ (∃ r, (scanContexts caller path cfg.contexts).1 = some r ∧
            r.rewritten_path = none) := by
      rcases h with h | h
      · exact Or.inl (scanContexts_none_of_all_fail caller path cfg.contexts h)
      · exact Or.inr h
    rcases hw with hw | ⟨r, hw, ht⟩
    · simp [rewrite, hw, apply_rule]
    · simp [rewrite, hw, apply_rule, ht]
  · intro p hp
    rcases har : apply_rule cfg.orig_fs cfg.autocreate euid egid uid gid path
        (scanContexts caller path cfg.contexts).1 with _ | pe
    · simp [rewrite, har] at hp
    · have heff : (rewrite cfg euid egid uid gid caller path).effects = pe.2 := by
        simp [rewrite, har]
      have hres : (rewrite cfg euid egid uid gid caller path).result = some pe.1 := by
        simp [rewrite, har]
      rw [heff] at hp
      obtain ⟨hac, hp1, r, tmpl, hrul, htm⟩ :=
        apply_rule_mkdir_inv _ _ _ _ _ _ _ _ _ _ har hp
      exact ⟨hac, by rw [hres, hp1], r, tmpl, hrul, htm⟩

/-- Concrete data for the C10 witness: a passthrough rule that matches. -/
def rgC10w : Regexp :=
  { captures := 0, raw := [],
    exec := fun _ => ExecResult.matched 0 1 [] }

/-- Concrete config for the C10 witness: autocreate enabled, the winning
rule is a passthrough. -/
def cfgC10w : Config :=
  { orig_fs := "/data".data,
    contexts := [{ cmdline := none,
                   rules := [{ filename_regexp := rgC10w, rewritten_path := none }] }],
    autocreate := true }

/-- Witness for C10: with autocreate on and a matching passthrough rule, the
effect trace is empty. -/
theorem no_rewrite_branch_is_effect_free_witness :
    (rewrite cfgC10w 1 2 3 4 [] "/x".data).effects = [] :=
  (no_rewrite_branch_is_effect_free cfgC10w 1 2 3 4 [] "/x".data).1
    (Or.inr ⟨{ filename_regexp := rgC10w, rewritten_path := none }, rfl, rfl⟩)

/-!  Claim C3.  -/

theorem scanRules_first_match (path : Str) (rpre rest1 rest2 : List Rule) (r : Rule)
    (hr : isMatched (r.filename_regexp.exec (stripSlash path)) = true) :
    scanRules path (rpre ++ r :: rest1) = scanRules path (rpre ++ r :: rest2) := by
  rw [scanRules_append, scanRules_append]
  have h1 : scanRules path (r :: rest1) = (some r, []) := by simp [scanRules, hr]
  have h2 : scanRules path (r :: rest2) = (some r, []) := by simp [scanRules, hr]
  rw [h1, h2]

theorem scanRules_winner_of_match (path : Str) (rpre rest : List Rule) (r : Rule)
    (hr : isMatched (r.filename_regexp.exec (stripSlash path)) = true) :
    ∃ w, (scanRules path (rpre ++ r :: rest)).1 = some w := by
  rw [scanRules_append]
  have h1 : scanRules path (r :: rest) = (some r, []) := by simp [scanRules, hr]
  rw [h1]
  rcases hx : (scanRules path rpre).1 with _ | w
  · exact ⟨r, by simp [scanCombine, hx]⟩
  · exact ⟨w, by simp [scanCombine, hx]⟩

/-- C3: within the currently examined Context, rules are tried in declared
order against the request path with the leading slash stripped, and the
first matching Rule wins immediately. First conjunct: the whole resolution
output is insensitive to everything after the first matching rule (the later
rules of that context and all later contexts are never examined). Second
conjunct: when the scan reaches that rule (no earlier context produced a
winner and no earlier rule of this context matches), that rule is the
winner. -/
theorem first_matching_rule_wins
    (fs : Str) (ac : Bool) (euid egid uid gid : Nat) (caller path : Str)
    (pre post1 post2 : List Context) (cmd : Option Regexp)
    (rpre rest1 rest2 : List Rule) (r : Rule)
    (hc : ctxEntered caller cmd = true)
    (hr : isMatched (r.filename_regexp.exec (stripSlash path)) = true) :
    rewrite ⟨fs, pre ++ (⟨cmd, rpre ++ r :: rest1⟩ : Context) :: post1, ac⟩
        euid egid uid gid caller path
      = rewrite ⟨fs, pre ++ (⟨cmd, rpre ++ r :: rest2⟩ : Context) :: post2, ac⟩
        euid egid uid gid caller path
    ∧ ((scanContexts caller path pre).1 = none →
        (∀ r' ∈ rpre, isMatched (r'.filename_regexp.exec (stripSlash path)) = false) →
        (scanContexts caller path
            (pre ++ (⟨cmd, rpre ++ r :: rest1⟩ : Context) :: post1)).1 = some r) := by
  obtain ⟨w, hw⟩ := scanRules_winner_of_match path rpre rest1 r hr
  have hsr : scanRules path (rpre ++ r :: rest1) = scanRules path (rpre ++ r :: rest2) :=
    scanRules_first_match path rpre rest1 rest2 r hr
  have hctx1 : scanContexts caller path ((⟨cmd, rpre ++ r :: rest1⟩ : Context) :: post1)
      = (some w, (scanRules path (rpre ++ r :: rest1)).2) := by
    simp [scanContexts, hc, hw]
  have hctx2 : scanContexts caller path ((⟨cmd, rpre ++ r :: rest2⟩ : Context) :: post2)
      = (some w, (scanRules path (rpre ++ r :: rest2)).2) := by
    have hw2 : (scanRules path (rpre ++ r :: rest2)).1 = some w := by rw [← hsr]; exact hw
    simp [scanContexts, hc, hw2]
  have hscan : scanContexts caller path
        (pre ++ (⟨cmd, rpre ++ r :: rest1⟩ : Context) :: post1)
      = scanContexts caller path
        (pre ++ (⟨cmd, rpre ++ r :: rest2⟩ : Context) :: post2) := by
    rw [scanContexts_append, scanContexts_append, hctx1, hctx2, hsr]
  constructor
  · simp only [rewrite]
    rw [hscan]
  · intro hpre hrpre
    have hrp : (scanRules path rpre).1 = none := scanRules_none_of_all_fail path rpre hrpre
    have hw' : (scanRules path (rpre ++ r :: rest1)).1 = some r := by
      rw [scanRules_append]
      have h1 : scanRules path (r :: rest1) = (some r, []) := by simp [scanRules, hr]
      rw [h1]
      simp [scanCombine, hrp]
    have hctx1' : (scanContexts caller path
        ((⟨cmd, rpre ++ r :: rest1⟩ : Context) :: post1)).1 = some r := by
      simp [scanContexts, hc, hw']
    rw [scanContexts_append, scanCombine, hpre]
    simpa using hctx1'

/-- Concrete data for the C3 witness. -/
def rgC3hit : Regexp :=
  { captures := 0, raw := [], exec := fun _ => ExecResult.matched 0 1 [] }

/-- Concrete never-matching pattern for the C3 witness. -/
def rgC3miss : Regexp := { captures := 0, raw := [], exec := fun _ => ExecResult.noMatch }

/-- The winning rule of the C3 witness. -/
def ruleC3 : Rule := { filename_regexp := rgC3hit, rewritten_path := none }

/-- A decoy later rule for the C3 witness (also matching). -/
def ruleC3decoy : Rule := { filename_regexp := rgC3hit, rewritten_path := some "z".data }

/-- Witness for C3 at concrete input: output is independent of the rules
after the first match and of the later contexts, and the first matching rule
is the winner. -/
theorem first_matching_rule_wins_witness :
    rewrite ⟨"/d".data, [] ++ (⟨none, [] ++ ruleC3 :: [ruleC3decoy]⟩ : Context)
        :: [⟨none, [ruleC3decoy]⟩], false⟩ 0 0 0 0 [] "/x".data
      = rewrite ⟨"/d".data, [] ++ (⟨none, [] ++ ruleC3 :: []⟩ : Context) :: [], false⟩
        0 0 0 0 [] "/x".data
    ∧ (scanContexts [] "/x".data ([] ++ (⟨none, [] ++ ruleC3 :: [ruleC3decoy]⟩ : Context)
        :: [⟨none, [ruleC3decoy]⟩])).1 = some ruleC3 := by
  obtain ⟨h1, h2⟩ := first_matching_rule_wins "/d".data false 0 0 0 0 [] "/x".data
    [] [⟨none, [ruleC3decoy]⟩] [] none [] [ruleC3decoy] [] ruleC3 rfl rfl
  exact ⟨h1, h2 rfl (by intro r' hr'; cases hr')⟩

/-!  Claim C4.  -/

theorem rewrite_congr_winner (fs : Str) (ac : Bool) (euid egid uid gid : Nat)
    (caller path : Str) (ctxs1 ctxs2 : List Context)
    (hw : (scanContexts caller path ctxs1).1 = (scanContexts caller path ctxs2).1) :
    (rewrite ⟨fs, ctxs1, ac⟩ euid egid uid gid caller path).result
      = (rewrite ⟨fs, ctxs2, ac⟩ euid egid uid gid caller path).result
    ∧ (rewrite ⟨fs, ctxs1, ac⟩ euid egid uid gid caller path).effects
      = (rewrite ⟨fs, ctxs2, ac⟩ euid egid uid gid caller path).effects := by
  simp only [rewrite, hw]
  cases apply_rule fs ac euid egid uid gid path (scanContexts caller path ctxs2).1 <;>
    simp

/-- C4: a Context whose caller pattern matches but none of whose Rules
matches the stripped request path does not stop resolution: deleting that
context from the sequence leaves the returned path and the autocreate
effects unchanged, so a later Context's matching rule still determines the
result; only a matching Rule terminates the search. -/
theorem matching_context_falls_through
    (fs : Str) (ac : Bool) (euid egid uid gid : Nat) (caller path : Str)
    (pre post : List Context) (c : Context)
    (hc : ctxEntered caller c.cmdline = true)
    (hrules : ∀ r ∈ c.rules, isMatched (r.filename_regexp.exec (stripSlash path)) = false) :
    (rewrite ⟨fs, pre ++ c :: post, ac⟩ euid egid uid gid caller path).result
      = (rewrite ⟨fs, pre ++ post, ac⟩ euid egid uid gid caller path).result
    ∧ (rewrite ⟨fs, pre ++ c :: post, ac⟩ euid egid uid gid caller path).effects
      = (rewrite ⟨fs, pre ++ post, ac⟩ euid egid uid gid caller path).effects := by
  apply rewrite_congr_winner
  have hrn : (scanRules path c.rules).1 = none := scanRules_none_of_all_fail path c.rules hrules
  have hmid : (scanContexts caller path (c :: post)).1 = (scanContexts caller path post).1 := by
    rcases hrr : scanRules path c.rules with ⟨wr, wsr⟩
    rw [hrr] at hrn
    cases hrn
    simp [scanContexts, hc, hrr]
  rw [scanContexts_append, scanContexts_append]
  rcases hx : (scanContexts caller path pre).1 with _ | w
  · simp [scanCombine, hx, hmid]
  · simp [scanCombine, hx]

/-- Concrete always-matching pattern for the C4 witness. -/
def rgC4hit : Regexp :=
  { captures := 0, raw := [], exec := fun _ => ExecResult.matched 0 1 [] }

/-- Concrete never-matching pattern for the C4 witness. -/
def rgC4miss : Regexp := { captures := 0, raw := [], exec := fun _ => ExecResult.noMatch }

/-- The matching rule of the later context in the C4 witness. -/
def ruleC4late : Rule := { filename_regexp := rgC4hit, rewritten_path := some "w".data }

/-- The never-matching rule of the fallthrough context in the C4 witness. -/
def ruleC4miss : Rule := { filename_regexp := rgC4miss, rewritten_path := some "z".data }

/-- Witness for C4 at concrete input: the caller-matching context with only
failing rules can be deleted without changing result or effects. -/
theorem matching_context_falls_through_witness :
    (rewrite ⟨"/d".data, [] ++ (⟨none, [ruleC4miss]⟩ : Context) :: [⟨none, [ruleC4late]⟩],
        false⟩ 0 0 0 0 [] "/x".data).result
      = (rewrite ⟨"/d".data, [] ++ [⟨none, [ruleC4late]⟩], false⟩
          0 0 0 0 [] "/x".data).result
    ∧ (rewrite ⟨"/d".data, [] ++ (⟨none, [ruleC4miss]⟩ : Context) :: [⟨none, [ruleC4late]⟩],
        false⟩ 0 0 0 0 [] "/x".data).effects
      = (rewrite ⟨"/d".data, [] ++ [⟨none, [ruleC4late]⟩], false⟩
          0 0 0 0 [] "/x".data).effects :=
  matching_context_falls_through "/d".data false 0 0 0 0 [] "/x".data
    [] [⟨none, [ruleC4late]⟩] ⟨none, [ruleC4miss]⟩ rfl
    (by intro r hr; simp only [List.mem_singleton] at hr; subst hr; rfl)

/-!  Claim C1.  -/

/-- The rule of the spec's backreference example: pattern `^foo/(.*)$` with
one capture group, template `bar/\1`. The exec oracle reproduces the PCRE
behaviour of that pattern on the one subject the example uses. -/
def ruleC1ex : Rule :=
  { filename_regexp :=
      { captures := 1, raw := "^foo/(.*)$".data,
        exec := fun s =>
          if s = "foo/baz/qux".data then
            ExecResult.matched 0 11 [some "baz/qux".data]
          else ExecResult.noMatch },
    rewritten_path := some "bar/\\1".data }

/-- Config of the spec's backreference example: root `/data`, one default
context holding `ruleC1ex`. -/
def cfgC1ex : Config :=
  { orig_fs := "/data".data,
    contexts := [{ cmdline := none, rules := [ruleC1ex] }],
    autocreate := false }

/-- C1 (amended): when a rule wins with a non-passthrough template, the
returned path is
`root ++ path[0 .. 1+mstart) ++ substituted-template ++ path[1+mend ..)`,
where the substituted template is produced by `subst_backrefs`: for
N = 1..capture-count in increasing order, every occurrence of the token
`\N` in the current string is replaced by capture N's text (so text spliced
in for an earlier group is itself subject to later groups' replacements);
and the spec's own example still holds: root `/data`, winning pattern
`^foo/(.*)$`, template `bar/\1`, request `/foo/baz/qux` resolve to
`/data/bar/baz/qux`. -/
theorem winning_rewrite_shape
    (fs : Str) (ac : Bool) (euid egid uid gid : Nat) (caller path : Str)
    (ctxs : List Context) (r : Rule) (tmpl : Str) (a b : Nat)
    (gs : List (Option Str)) (expanded : Str)
    (hw : (scanContexts caller path ctxs).1 = some r)
    (ht : r.rewritten_path = some tmpl)
    (hx : r.filename_regexp.exec (stripSlash path) = ExecResult.matched a b gs)
    (hs : subst_backrefs tmpl gs (scountOf gs) r.filename_regexp.captures
      = some expanded) :
    (rewrite ⟨fs, ctxs, ac⟩ euid egid uid gid caller path).result
      = some (fs ++ path.take (1 + a) ++ expanded ++ path.drop (1 + b))
    ∧ (rewrite cfgC1ex 0 0 0 0 [] "/foo/baz/qux".data).result
      = some ("/data/bar/baz/qux".data) := by
  constructor
  · simp [rewrite, hw, apply_rule, ht, hx, apply_rule_rewrite, hs]
  · decide

/-- Witness for C1's amended statement, applied at the example input itself
(pattern `^foo/(.*)$`, template `bar/\1`, root `/data`, path
`/foo/baz/qux`). -/
theorem winning_rewrite_shape_witness :
    (rewrite ⟨"/data".data, [{ cmdline := none, rules := [ruleC1ex] }], false⟩
        0 0 0 0 [] "/foo/baz/qux".data).result
      = some ("/data".data ++ ("/foo/baz/qux".data).take (1 + 0)
          ++ "bar/baz/qux".data ++ ("/foo/baz/qux".data).drop (1 + 11)) :=
  (winning_rewrite_shape "/data".data false 0 0 0 0 [] "/foo/baz/qux".data
    [{ cmdline := none, rules := [ruleC1ex] }] ruleC1ex "bar/\\1".data 0 11
    [some "baz/qux".data] "bar/baz/qux".data rfl rfl rfl (by decide)).1

/-- The counterexample rule for C1: two capture groups, and on the subject
`\2xq` group 1 captures the two bytes `\2` while group 2 captures `q` (the
PCRE behaviour of a pattern such as `^(.*)x(.*)$` on that subject). The
template is `\1`. -/
def ruleC1cex : Rule :=
  { filename_regexp :=
      { captures := 2, raw := "^(.*)x(.*)$".data,
        exec := fun s =>
          if s = "\\2xq".data then
            ExecResult.matched 0 4 [some "\\2".data, some "q".data]
          else ExecResult.noMatch },
    rewritten_path := some "\\1".data }

/-- Config of the C1 counterexample. -/
def cfgC1cex : Config :=
  { orig_fs := "/data".data,
    contexts := [{ cmdline := none, rules := [ruleC1cex] }],
    autocreate := false }

/-- C1 counterexample: the code resolves `/\2xq` to `/data/q` — the `\2`
spliced in for group 1 is replaced again by group 2's text — whereas the
claimed single left-to-right template scan (`spec_expand`) expands `\1` to
`\2`, so the claimed result `/data/\2` differs from the code's result. -/
theorem backref_substitution_not_single_scan :
    (rewrite cfgC1cex 0 0 0 0 [] "/\\2xq".data).result = some ("/data/q".data)
    ∧ spec_expand [some "\\2".data, some "q".data] 2 "\\1".data = "\\2".data
    ∧ (rewrite cfgC1cex 0 0 0 0 [] "/\\2xq".data).result
      ≠ some ("/data".data ++ ("/\\2xq".data).take (1 + 0)
          ++ spec_expand [some "\\2".data, some "q".data] 2 "\\1".data
          ++ ("/\\2xq".data).drop (1 + 4)) := by decide

/-!  Claim C6.  -/

theorem subst_backrefs_none_iff (tmpl : Str) (gs : List (Option Str))
    (scount captures : Nat) :
    subst_backrefs tmpl gs scount captures = none
      ↔ (1 ≤ captures ∧ scount ≤ captures) := by
  induction captures with
  | zero => simp [subst_backrefs]
  | succ n ih =>
    rw [subst_backrefs, List.range_succ, List.foldlM_append]
    rcases hn : subst_backrefs tmpl gs scount n with _ | acc
    · rw [subst_backrefs] at hn
      rw [hn]
      have hcond := (ih).mp (by rw [subst_backrefs]; exact hn)
      simp
      omega
    · rw [subst_backrefs] at hn
      rw [hn]
      have hcond : ¬(1 ≤ n ∧ scount ≤ n) := by
        intro hc
        have hnone := (ih).mpr hc
        rw [subst_backrefs] at hnone
        rw [hnone] at hn
        cases hn
      simp only [Option.bind_some, List.foldlM_cons, List.foldlM_nil]
      rcases hg : pcre_get_substring gs scount (n + 1) with _ | sub
      · simp only [pcre_get_substring] at hg
        split at hg
        · simp
          omega
        · cases hg
      · simp only [pcre_get_substring] at hg
        split at hg
        · cases hg
        · simp
          omega

/-- C6 (amended): with a winning rule whose template is not the passthrough
sentinel, apply_rule aborts the process (the assertion on
`pcre_get_substring`, modelled by the `none` outcome — an outcome distinct
from any ordinary resolution result) if and only if the rule has at least
one capture group and the match's stringcount is at most the capture count,
i.e. exactly when the highest-numbered capture group did not participate in
the winning match. The loop runs over every group index up to the capture
count whether or not the template mentions it, so the abort is independent
of the template's backreference tokens; an out-of-range token `\N`
(N > capture count) is simply left in the output (see the counterexample)
and a non-participating group below the highest participating one is
replaced by the empty string. -/
theorem backref_abort_characterisation
    (fs : Str) (ac : Bool) (euid egid uid gid : Nat) (path : Str) (r : Rule)
    (tmpl : Str) (a b : Nat) (gs : List (Option Str))
    (ht : r.rewritten_path = some tmpl)
    (hx : r.filename_regexp.exec (stripSlash path) = ExecResult.matched a b gs) :
    apply_rule fs ac euid egid uid gid path (some r) = none
      ↔ (1 ≤ r.filename_regexp.captures
          ∧ scountOf gs ≤ r.filename_regexp.captures) := by
  rw [← subst_backrefs_none_iff tmpl gs (scountOf gs) r.filename_regexp.captures]
  simp only [apply_rule, ht, hx, apply_rule_rewrite]
  rcases hs : subst_backrefs tmpl gs (scountOf gs) r.filename_regexp.captures with _ | rp
  · simp
  · simp

/-- The rule of the C6 witness: one capture group that does not participate
in the match (e.g. pattern `a(b)?` on subject `a`: stringcount 1). -/
def ruleC6w : Rule :=
  { filename_regexp :=
      { captures := 1, raw := "a(b)?".data,
        exec := fun s =>
          if s = "a".data then ExecResult.matched 0 1 [none]
          else ExecResult.noMatch },
    rewritten_path := some "t".data }

/-- Witness for C6's amended statement: the abort actually happens at a
concrete input where the (only) capture group did not participate — even
though the template `t` contains no backreference token at all. -/
theorem backref_abort_characterisation_witness :
    apply_rule "/r".data false 0 0 0 0 "/a".data (some ruleC6w) = none :=
  (backref_abort_characterisation "/r".data false 0 0 0 0 "/a".data ruleC6w
    "t".data 0 1 [none] rfl rfl).mpr (by decide)

/-- The counterexample rule for C6: one capture group (which participates),
template `x\2y` holding the out-of-range backreference token `\2`. -/
def ruleC6cex : Rule :=
  { filename_regexp :=
      { captures := 1, raw := "^a(b)$".data,
        exec := fun s =>
          if s = "ab".data then ExecResult.matched 0 2 [some "b".data]
          else ExecResult.noMatch },
    rewritten_path := some "x\\2y".data }

/-- C6 counterexample: a backreference token `\2` that is out of range
(greater than the rule's capture count 1) does not abort resolution; the
code returns a path with the token left verbatim in it. -/
theorem out_of_range_backref_no_abort :
    ruleC6cex.rewritten_path = some ("x\\2y".data)
    ∧ ruleC6cex.filename_regexp.captures = 1
    ∧ apply_rule "/r".data false 0 0 0 0 "/ab".data (some ruleC6cex)
      = some ("/r/x\\2y".data, []) := by decide

/-!  Claim C9.  -/

theorem rewrite_warnings_eq (cfg : Config) (euid egid uid gid : Nat)
    (caller path : Str) :
    (rewrite cfg euid egid uid gid caller path).warnings
      = (scanContexts caller path cfg.contexts).2 := by
  simp only [rewrite]
  cases h : apply_rule cfg.orig_fs cfg.autocreate euid egid uid gid path
      (scanContexts caller path cfg.contexts).1 <;> rfl

/-- C9: a regex match attempt that returns an engine-internal error — on a
context's caller pattern (first conjunct) or on a rule's path pattern
(second conjunct) — steers control flow exactly as a clean no-match does:
the returned path and the autocreate effects are the same as if that exec
had returned no-match; but the warning log differs, gaining exactly one
entry with the engine's error code at the point of the failing attempt. -/
theorem engine_error_as_nonmatch_with_warning
    (fs : Str) (ac : Bool) (euid egid uid gid : Nat) (caller path : Str)
    (pre post : List Context) (rules : List Rule) (r1 r2 : Regexp) (e : Int)
    (pre2 post2 : List Context) (cmd : Option Regexp) (rpre rrest : List Rule)
    (fr1 fr2 : Regexp) (tm1 tm2 : Option Str) (e2 : Int)
    (h1 : r1.exec caller = ExecResult.engineError e)
    (h2 : r2.exec caller = ExecResult.noMatch)
    (hpre : (scanContexts caller path pre).1 = none)
    (h3 : fr1.exec (stripSlash path) = ExecResult.engineError e2)
    (h4 : fr2.exec (stripSlash path) = ExecResult.noMatch)
    (hpre2 : (scanContexts caller path pre2).1 = none)
    (hcmd : ctxEntered caller cmd = true)
    (hrpre : (scanRules path rpre).1 = none) :
    ((rewrite ⟨fs, pre ++ (⟨some r1, rules⟩ : Context) :: post, ac⟩
        euid egid uid gid caller path).result
      = (rewrite ⟨fs, pre ++ (⟨some r2, rules⟩ : Context) :: post, ac⟩
        euid egid uid gid caller path).result
    ∧ (rewrite ⟨fs, pre ++ (⟨some r1, rules⟩ : Context) :: post, ac⟩
        euid egid uid gid caller path).effects
      = (rewrite ⟨fs, pre ++ (⟨some r2, rules⟩ : Context) :: post, ac⟩
        euid egid uid gid caller path).effects
    ∧ ∃ w1 w2,
        (rewrite ⟨fs, pre ++ (⟨some r1, rules⟩ : Context) :: post, ac⟩
          euid egid uid gid caller path).warnings = w1 ++ e :: w2
        ∧ (rewrite ⟨fs, pre ++ (⟨some r2, rules⟩ : Context) :: post, ac⟩
          euid egid uid gid caller path).warnings = w1 ++ w2)
    ∧ ((rewrite ⟨fs, pre2 ++ (⟨cmd,
          rpre ++ ({ filename_regexp := fr1, rewritten_path := tm1 } : Rule) :: rrest⟩
          : Context) :: post2, ac⟩ euid egid uid gid caller path).result
      = (rewrite ⟨fs, pre2 ++ (⟨cmd,
          rpre ++ ({ filename_regexp := fr2, rewritten_path := tm2 } : Rule) :: rrest⟩
          : Context) :: post2, ac⟩ euid egid uid gid caller path).result
    ∧ (rewrite ⟨fs, pre2 ++ (⟨cmd,
          rpre ++ ({ filename_regexp := fr1, rewritten_path := tm1 } : Rule) :: rrest⟩
          : Context) :: post2, ac⟩ euid egid uid gid caller path).effects
      = (rewrite ⟨fs, pre2 ++ (⟨cmd,
          rpre ++ ({ filename_regexp := fr2, rewritten_path := tm2 } : Rule) :: rrest⟩
          : Context) :: post2, ac⟩ euid egid uid gid caller path).effects
    ∧ ∃ w1 w2,
        (rewrite ⟨fs, pre2 ++ (⟨cmd,
          rpre ++ ({ filename_regexp := fr1, rewritten_path := tm1 } : Rule) :: rrest⟩
          : Context) :: post2, ac⟩ euid egid uid gid caller path).warnings
          = w1 ++ e2 :: w2
        ∧ (rewrite ⟨fs, pre2 ++ (⟨cmd,
          rpre ++ ({ filename_regexp := fr2, rewritten_path := tm2 } : Rule) :: rrest⟩
          : Context) :: post2, ac⟩ euid egid uid gid caller path).warnings
          = w1 ++ w2) := by
  constructor
  · -- context scenario
    have hent1 : ctxEntered caller (some r1) = false := by
      simp [ctxEntered, h1, isMatched]
    have hent2 : ctxEntered caller (some r2) = false := by
      simp [ctxEntered, h2, isMatched]
    have hs1 : scanContexts caller path ((⟨some r1, rules⟩ : Context) :: post)
        = ((scanContexts caller path post).1,
           e :: (scanContexts caller path post).2) := by
      simp [scanContexts, hent1, ctxWarnings, h1, warnOf]
    have hs2 : scanContexts caller path ((⟨some r2, rules⟩ : Context) :: post)
        = ((scanContexts caller path post).1, (scanContexts caller path post).2) := by
      simp [scanContexts, hent2, ctxWarnings, h2, warnOf]
    rcases hp : scanContexts caller path pre with ⟨wpre, wspre⟩
    rw [hp] at hpre
    obtain rfl : wpre = none := hpre
    have full1 : scanContexts caller path
        (pre ++ (⟨some r1, rules⟩ : Context) :: post)
        = ((scanContexts caller path post).1,
           wspre ++ e :: (scanContexts caller path post).2) := by
      rw [scanContexts_append, hp, hs1]
      simp [scanCombine]
    have full2 : scanContexts caller path
        (pre ++ (⟨some r2, rules⟩ : Context) :: post)
        = ((scanContexts caller path post).1,
           wspre ++ (scanContexts caller path post).2) := by
      rw [scanContexts_append, hp, hs2]
      simp [scanCombine]
    have hwin : (scanContexts caller path
          (pre ++ (⟨some r1, rules⟩ : Context) :: post)).1
        = (scanContexts caller path (pre ++ (⟨some r2, rules⟩ : Context) :: post)).1 := by
      rw [full1, full2]
    obtain ⟨hres, heff⟩ := rewrite_congr_winner fs ac euid egid uid gid caller path _ _ hwin
    refine ⟨hres, heff, wspre, (scanContexts caller path post).2, ?_, ?_⟩
    · rw [rewrite_warnings_eq]
      rw [show (Config.mk fs (pre ++ (⟨some r1, rules⟩ : Context) :: post) ac).contexts
          = pre ++ (⟨some r1, rules⟩ : Context) :: post from rfl, full1]
    · rw [rewrite_warnings_eq]
      rw [show (Config.mk fs (pre ++ (⟨some r2, rules⟩ : Context) :: post) ac).contexts
          = pre ++ (⟨some r2, rules⟩ : Context) :: post from rfl, full2]
  · -- rule scenario
    have hm1 : isMatched (({ filename_regexp := fr1, rewritten_path := tm1 }
        : Rule).filename_regexp.exec (stripSlash path)) = false := by
      simp [h3, isMatched]
    have hm2 : isMatched (({ filename_regexp := fr2, rewritten_path := tm2 }
        : Rule).filename_regexp.exec (stripSlash path)) = false := by
      simp [h4, isMatched]
    rcases hq : scanRules path rpre with ⟨wr, wsr⟩
    rw [hq] at hrpre
    obtain rfl : wr = none := hrpre
    have hr1 : scanRules path
        (rpre ++ ({ filename_regexp := fr1, rewritten_path := tm1 } : Rule) :: rrest)
        = ((scanRules path rrest).1, wsr ++ e2 :: (scanRules path rrest).2) := by
      rw [scanRules_append, hq]
      have : scanRules path
          (({ filename_regexp := fr1, rewritten_path := tm1 } : Rule) :: rrest)
          = ((scanRules path rrest).1, e2 :: (scanRules path rrest).2) := by
        simp [scanRules, hm1, h3, warnOf, isMatched]
      rw [this]
      simp [scanCombine]
    have hr2 : scanRules path
        (rpre ++ ({ filename_regexp := fr2, rewritten_path := tm2 } : Rule) :: rrest)
        = ((scanRules path rrest).1, wsr ++ (scanRules path rrest).2) := by
      rw [scanRules_append, hq]
      have : scanRules path
          (({ filename_regexp := fr2, rewritten_path := tm2 } : Rule) :: rrest)
          = ((scanRules path rrest).1, (scanRules path rrest).2) := by
        simp [scanRules, hm2, h4, warnOf, isMatched]
      rw [this]
      simp [scanCombine]
    rcases hp2 : scanContexts caller path pre2 with ⟨wpre2, wspre2⟩
    rw [hp2] at hpre2
    obtain rfl : wpre2 = none := hpre2
    rcases hrr : (scanRules path rrest).1 with _ | w
    · -- no rule of this context matches: fall through to post2
      have hc1 : scanContexts caller path ((⟨cmd,
          rpre ++ ({ filename_regexp := fr1, rewritten_path := tm1 } : Rule) :: rrest⟩
          : Context) :: post2)
          = ((scanContexts caller path post2).1,
             (wsr ++ e2 :: (scanRules path rrest).2)
               ++ (scanContexts caller path post2).2) := by
        simp [scanContexts, hcmd, hr1, hrr]
      have hc2 : scanContexts caller path ((⟨cmd,
          rpre ++ ({ filename_regexp := fr2, rewritten_path := tm2 } : Rule) :: rrest⟩
          : Context) :: post2)
          = ((scanContexts caller path post2).1,
             (wsr ++ (scanRules path rrest).2)
               ++ (scanContexts caller path post2).2) := by
        simp [scanContexts, hcmd, hr2, hrr]
      have full1 := scanContexts_append caller path pre2 ((⟨cmd,
          rpre ++ ({ filename_regexp := fr1, rewritten_path := tm1 } : Rule) :: rrest⟩
          : Context) :: post2)
      have full2 := scanContexts_append caller path pre2 ((⟨cmd,
          rpre ++ ({ filename_regexp := fr2, rewritten_path := tm2 } : Rule) :: rrest⟩
          : Context) :: post2)
      rw [hp2, hc1] at full1
      rw [hp2, hc2] at full2
      simp only [scanCombine] at full1 full2
      have hwin : (scanContexts caller path (pre2 ++ (⟨cmd,
            rpre ++ ({ filename_regexp := fr1, rewritten_path := tm1 } : Rule) :: rrest⟩
            : Context) :: post2)).1
          = (scanContexts caller path (pre2 ++ (⟨cmd,
            rpre ++ ({ filename_regexp := fr2, rewritten_path := tm2 } : Rule) :: rrest⟩
            : Context) :: post2)).1 := by
        rw [full1, full2]
      obtain ⟨hres, heff⟩ :=
        rewrite_congr_winner fs ac euid egid uid gid caller path _ _ hwin
      refine ⟨hres, heff, wspre2 ++ wsr,
        (scanRules path rrest).2 ++ (scanContexts caller path post2).2, ?_, ?_⟩
      · rw [rewrite_warnings_eq]
        rw [show (Config.mk fs (pre2 ++ (⟨cmd,
            rpre ++ ({ filename_regexp := fr1, rewritten_path := tm1 } : Rule) :: rrest⟩
            : Context) :: post2) ac).contexts = pre2 ++ (⟨cmd,
            rpre ++ ({ filename_regexp := fr1, rewritten_path := tm1 } : Rule) :: rrest⟩
            : Context) :: post2 from rfl, full1]
        simp
      · rw [rewrite_warnings_eq]
        rw [show (Config.mk fs (pre2 ++ (⟨cmd,
            rpre ++ ({ filename_regexp := fr2, rewritten_path := tm2 } : Rule) :: rrest⟩
            : Context) :: post2) ac).contexts = pre2 ++ (⟨cmd,
            rpre ++ ({ filename_regexp := fr2, rewritten_path := tm2 } : Rule) :: rrest⟩
            : Context) :: post2 from rfl, full2]
        simp
    · -- a later rule of the same context matches
      have hc1 : scanContexts caller path ((⟨cmd,
          rpre ++ ({ filename_regexp := fr1, rewritten_path := tm1 } : Rule) :: rrest⟩
          : Context) :: post2)
          = (some w, wsr ++ e2 :: (scanRules path rrest).2) := by
        simp [scanContexts, hcmd, hr1, hrr]
      have hc2 : scanContexts caller path ((⟨cmd,
          rpre ++ ({ filename_regexp := fr2, rewritten_path := tm2 } : Rule) :: rrest⟩
          : Context) :: post2)
          = (some w, wsr ++ (scanRules path rrest).2) := by
        simp [scanContexts, hcmd, hr2, hrr]
      have full1 := scanContexts_append caller path pre2 ((⟨cmd,
          rpre ++ ({ filename_regexp := fr1, rewritten_path := tm1 } : Rule) :: rrest⟩
          : Context) :: post2)
      have full2 := scanContexts_append caller path pre2 ((⟨cmd,
          rpre ++ ({ filename_regexp := fr2, rewritten_path := tm2 } : Rule) :: rrest⟩
          : Context) :: post2)
      rw [hp2, hc1] at full1
      rw [hp2, hc2] at full2
      simp only [scanCombine] at full1 full2
      have hwin : (scanContexts caller path (pre2 ++ (⟨cmd,
            rpre ++ ({ filename_regexp := fr1, rewritten_path := tm1 } : Rule) :: rrest⟩
            : Context) :: post2)).1
          = (scanContexts caller path (pre2 ++ (⟨cmd,
            rpre ++ ({ filename_regexp := fr2, rewritten_path := tm2 } : Rule) :: rrest⟩
            : Context) :: post2)).1 := by
        rw [full1, full2]
      obtain ⟨hres, heff⟩ :=
        rewrite_congr_winner fs ac euid egid uid gid caller path _ _ hwin
      refine ⟨hres, heff, wspre2 ++ wsr, (scanRules path rrest).2, ?_, ?_⟩
      · rw [rewrite_warnings_eq]
        rw [show (Config.mk fs (pre2 ++ (⟨cmd,
            rpre ++ ({ filename_regexp := fr1, rewritten_path := tm1 } : Rule) :: rrest⟩
            : Context) :: post2) ac).contexts = pre2 ++ (⟨cmd,
            rpre ++ ({ filename_regexp := fr1, rewritten_path := tm1 } : Rule) :: rrest⟩
            : Context) :: post2 from rfl, full1]
        simp
      · rw [rewrite_warnings_eq]
        rw [show (Config.mk fs (pre2 ++ (⟨cmd,
            rpre ++ ({ filename_regexp := fr2, rewritten_path := tm2 } : Rule) :: rrest⟩
            : Context) :: post2) ac).contexts = pre2 ++ (⟨cmd,
            rpre ++ ({ filename_regexp := fr2, rewritten_path := tm2 } : Rule) :: rrest⟩
            : Context) :: post2 from rfl, full2]
        simp

/-- Engine-erroring caller pattern for the C9 witness (error code 7). -/
def rgC9errC : Regexp :=
  { captures := 0, raw := [], exec := fun _ => ExecResult.engineError 7 }

/-- Cleanly failing caller pattern for the C9 witness. -/
def rgC9noC : Regexp := { captures := 0, raw := [], exec := fun _ => ExecResult.noMatch }

/-- Engine-erroring path pattern for the C9 witness (error code 9). -/
def rgC9errR : Regexp :=
  { captures := 0, raw := [], exec := fun _ => ExecResult.engineError 9 }

/-- Cleanly failing path pattern for the C9 witness. -/
def rgC9noR : Regexp := { captures := 0, raw := [], exec := fun _ => ExecResult.noMatch }

/-- Witness for C9 at a concrete configuration: in both the caller-pattern
and the path-pattern scenario, swapping the engine error for a clean
no-match keeps result and effects and only removes the warning entry. -/
theorem engine_error_as_nonmatch_with_warning_witness :
    ((rewrite ⟨"/d".data, [(⟨some rgC9errC, []⟩ : Context)], false⟩
        0 0 0 0 [] "/x".data).result
      = (rewrite ⟨"/d".data, [(⟨some rgC9noC, []⟩ : Context)], false⟩
        0 0 0 0 [] "/x".data).result
    ∧ (rewrite ⟨"/d".data, [(⟨some rgC9errC, []⟩ : Context)], false⟩
        0 0 0 0 [] "/x".data).effects
      = (rewrite ⟨"/d".data, [(⟨some rgC9noC, []⟩ : Context)], false⟩
        0 0 0 0 [] "/x".data).effects
    ∧ ∃ w1 w2,
        (rewrite ⟨"/d".data, [(⟨some rgC9errC, []⟩ : Context)], false⟩
          0 0 0 0 [] "/x".data).warnings = w1 ++ (7 : Int) :: w2
        ∧ (rewrite ⟨"/d".data, [(⟨some rgC9noC, []⟩ : Context)], false⟩
          0 0 0 0 [] "/x".data).warnings = w1 ++ w2)
    ∧ ((rewrite ⟨"/d".data,
          [(⟨none, [({ filename_regexp := rgC9errR, rewritten_path := none } : Rule)]⟩
            : Context)], false⟩ 0 0 0 0 [] "/x".data).result
      = (rewrite ⟨"/d".data,
          [(⟨none, [({ filename_regexp := rgC9noR, rewritten_path := none } : Rule)]⟩
            : Context)], false⟩ 0 0 0 0 [] "/x".data).result
    ∧ (rewrite ⟨"/d".data,
          [(⟨none, [({ filename_regexp := rgC9errR, rewritten_path := none } : Rule)]⟩
            : Context)], false⟩ 0 0 0 0 [] "/x".data).effects
      = (rewrite ⟨"/d".data,
          [(⟨none, [({ filename_regexp := rgC9noR, rewritten_path := none } : Rule)]⟩
            : Context)], false⟩ 0 0 0 0 [] "/x".data).effects
    ∧ ∃ w1 w2,
        (rewrite ⟨"/d".data,
          [(⟨none, [({ filename_regexp := rgC9errR, rewritten_path := none } : Rule)]⟩
            : Context)], false⟩ 0 0 0 0 [] "/x".data).warnings = w1 ++ (9 : Int) :: w2
        ∧ (rewrite ⟨"/d".data,
          [(⟨none, [({ filename_regexp := rgC9noR, rewritten_path := none } : Rule)]⟩
            : Context)], false⟩ 0 0 0 0 [] "/x".data).warnings = w1 ++ w2) :=
  engine_error_as_nonmatch_with_warning "/d".data false 0 0 0 0 [] "/x".data
    [] [] [] rgC9errC rgC9noC 7 [] [] none [] [] rgC9errR rgC9noR none none 9
    rfl rfl rfl rfl rfl rfl rfl rfl

/-!  Claim C5.  -/

/-- C5 (code-bug evidence at the failing input, delimiter `/`, stream
`a\/b/x`): the code updates the escape flag from the current character
before testing the separator, so when the delimiter arrives the flag has
just been cleared — the literal terminates at the first `/` even though it
is preceded by a backslash, and the backslash stays in the body
(body `a\`, rest `b/x`). The intended semantics the claim describes
(`parse_string_spec`, separator tested against the escape state left by the
previous character) instead drops the backslash, keeps the delimiter and
continues (body `a/b`, rest `x`). The two scanners disagree on this
input. -/
theorem parse_string_escape_order_bug :
    parse_string "a\\/b/x".data '/' = some ("a\\".data, "b/x".data)
    ∧ parse_string_spec "a\\/b/x".data '/' = some ("a/b".data, "x".data)
    ∧ parse_string "a\\/b/x".data '/' ≠ parse_string_spec "a\\/b/x".data '/' := by
  decide

/-!  Claim C7.  -/

/-- C7 counterexample: the claim says startup is rejected exactly when the
config-file path is a string-prefix of the mount-point path. With config
file `/a` and mount point `/ab` the config file IS a prefix of the mount
point, yet the check does not reject; with config file `/ab/c` and mount
point `/ab` the config file is NOT a prefix of the mount point, yet the
check rejects. -/
theorem startup_check_direction_cex :
    ("/a".data).isPrefixOf ("/ab".data) = true
    ∧ startup_config_rejected "/a".data "/ab".data = false
    ∧ ("/ab/c".data).isPrefixOf ("/ab".data) = false
    ∧ startup_config_rejected "/ab/c".data "/ab".data = true := by decide

/-- C7 (amended): the startup check
`strncmp(config_file, mount_point, strlen(mount_point)) == 0` rejects
exactly when the MOUNT POINT is a literal byte-wise prefix of the CONFIG
FILE path (the config file lies inside the mount point) — a naive prefix
comparison with no canonicalization. -/
theorem startup_check_mount_side (config_file mount_point : Str) :
    startup_config_rejected config_file mount_point = true
      ↔ mount_point.isPrefixOf config_file = true := by
  unfold startup_config_rejected strncmp_eq0
  rw [List.take_length, beq_iff_eq, List.isPrefixOf_iff_prefix,
    List.prefix_iff_eq_take]
  constructor
  · intro h
    exact h.symm
  · intro h
    exact h.symm

/-!  Claim C8.  -/

/-- C8 counterexample: for the single-argument command line `myapp`, the
code yields `myapp ` (the terminating NUL of the `/proc` record also becomes
a space), which is not the arguments joined with single spaces and nothing
else. -/
theorem caller_cmdline_trailing_space_cex :
    get_caller_cmdline (some (proc_cmdline_bytes ["myapp".data])) = "myapp ".data
    ∧ get_caller_cmdline (some (proc_cmdline_bytes ["myapp".data]))
      ≠ List.intercalate [' '] ["myapp".data] := by decide

theorem map_space_of_no_nul (a : Str) (h : nulChar ∉ a) :
    a.map (fun c => if c = nulChar then ' ' else c) = a := by
  have hpt : ∀ c ∈ a, (if c = nulChar then ' ' else c) = id c := by
    intro c hc
    have hcn : c ≠ nulChar := fun hcn => h (hcn ▸ hc)
    simp [hcn, id]
  rw [List.map_congr_left hpt, List.map_id]

theorem proc_join_helper : ∀ (args : List Str), (∀ a ∈ args, nulChar ∉ a) →
    (proc_cmdline_bytes args).map (fun c => if c = nulChar then ' ' else c)
      = (args.map (fun a => a ++ [' '])).flatten
  | [], _ => rfl
  | a :: as, h => by
    have ha := h a (List.mem_cons_self a as)
    have has := proc_join_helper as (fun a' h' => h a' (List.mem_cons_of_mem _ h'))
    have hstep : proc_cmdline_bytes (a :: as)
        = a ++ nulChar :: proc_cmdline_bytes as := rfl
    rw [hstep, List.map_append, map_space_of_no_nul a ha, List.map_cons, has]
    simp [List.append_assoc]

/-- C8 (amended): the caller-cmdline string used for context matching is the
byte content of the per-process introspection record with every NUL byte —
including each argument's terminating one — turned into a single space: the
result is each argument followed by one space (so a trailing space follows
the last argument). When the record is unreadable or the process has exited,
the empty string is returned, with no error; contexts whose caller pattern
does not match the empty string then simply fail to match. -/
theorem caller_cmdline_spaces (args : List Str)
    (h : ∀ a ∈ args, nulChar ∉ a) :
    get_caller_cmdline (some (proc_cmdline_bytes args))
      = (args.map (fun a => a ++ [' '])).flatten
    ∧ get_caller_cmdline none = [] :=
  ⟨proc_join_helper args h, rfl⟩

/-- Witness for C8's amended statement at the two-argument command line
`myapp -v`. -/
theorem caller_cmdline_spaces_witness :
    get_caller_cmdline (some (proc_cmdline_bytes ["myapp".data, "-v".data]))
      = "myapp -v ".data :=
  ((caller_cmdline_spaces ["myapp".data, "-v".data] (by decide)).1).trans (by decide)

end Rewritefs
